import Mathlib

set_option maxRecDepth 8000

namespace TypedSSE

/-!
Shallow embedding of the typed-sse repository: the receiver hook
(`useEventSource`, src/unnamed/part_000), the server connection
(`SSEClient`, src/packages/server/src/client.ts), the connection registry
(`SSEManager`, src/unnamed/part_001 and the second copy embedded in
client.ts), and the helpers in src/packages/react/src/utils.ts.
-/

/-- Structured payload values, as produced by the platform JSON
functions used by the repository (`JSON.parse` / `JSON.stringify`).
Numbers are modelled on the integer fragment, which covers every payload
appearing in the specification. -/
inductive Json where
  | null : Json
  | boolean : Bool → Json
  | num : Int → Json
  | str : String → Json
  | arr : List Json → Json
  | obj : List (String × Json) → Json

/-- Join a list of strings with a separator (model of Array.prototype.join). -/
def joinSep (sep : String) : List String → String
  | [] => ""
  | [x] => x
  | x :: y :: rest => x ++ sep ++ joinSep sep (y :: rest)

/-- Escaping of one character inside a JSON string literal. -/
def jsonEscapeChar (c : Char) : String :=
  if c = '"' then "\\\""
  else if c = '\\' then "\\\\"
  else if c = '\n' then "\\n"
  else if c = '\t' then "\\t"
  else if c = '\r' then "\\r"
  else String.singleton c

/-- Escaping of a JSON string literal body. -/
def jsonEscape (s : String) : String := String.join (s.toList.map jsonEscapeChar)

/-- Fuel-indexed serializer for `Json` (model of the platform JSON.stringify). -/
def jsonStringifyF : Nat → Json → String
  | 0, _ => ""
  | _ + 1, .null => "null"
  | _ + 1, .boolean b => if b then "true" else "false"
  | _ + 1, .num n => toString n
  | _ + 1, .str s => "\"" ++ jsonEscape s ++ "\""
  | f + 1, .arr xs => "[" ++ joinSep "," (xs.map (fun j => jsonStringifyF f j)) ++ "]"
  | f + 1, .obj kvs =>
      "\x7b" ++
        joinSep "," (kvs.map (fun kv => "\"" ++ jsonEscape kv.1 ++ "\":" ++ jsonStringifyF f kv.2))
        ++ "\x7d"

/-- Model of the platform JSON.stringify used by `SSEClient.formatMessage`.
The fuel bound only needs to exceed the nesting depth of the value. -/
def jsonStringify (j : Json) : String := jsonStringifyF 1000000 j

/-- Skip JSON whitespace. -/
def skipWs : List Char → List Char
  | [] => []
  | c :: rest => if c = ' ' ∨ c = '\n' ∨ c = '\t' ∨ c = '\r' then skipWs rest else c :: rest

/-- Decoding of a JSON escape character. -/
def unescape (e : Char) : Option Char :=
  if e = '"' then some '"'
  else if e = '\\' then some '\\'
  else if e = '/' then some '/'
  else if e = 'n' then some '\n'
  else if e = 't' then some '\t'
  else if e = 'r' then some '\r'
  else if e = 'b' then some (Char.ofNat 8)
  else if e = 'f' then some (Char.ofNat 12)
  else none

/-- Parse the body of a JSON string literal (after the opening quote),
returning the decoded characters and the remaining input. -/
def parseStrChars : List Char → Option (List Char × List Char)
  | [] => none
  | c :: rest =>
    if c = '"' then some ([], rest)
    else if c = '\\' then
      match rest with
      | [] => none
      | e :: rest2 =>
        match unescape e, parseStrChars rest2 with
        | some d, some (s, r) => some (d :: s, r)
        | _, _ => none
    else
      match parseStrChars rest with
      | some (s, r) => some (c :: s, r)
      | none => none

/-- Take the leading decimal digits of the input. -/
def takeDigits : List Char → (List Char × List Char)
  | [] => ([], [])
  | c :: rest =>
    if '0' ≤ c ∧ c ≤ '9' then
      match takeDigits rest with
      | (ds, r) => (c :: ds, r)
    else ([], c :: rest)

/-- Decimal digits to a natural number. -/
def digitsToNat (l : List Char) : Nat := l.foldl (fun a c => a * 10 + (c.toNat - 48)) 0

/-- Parse a JSON integer literal. -/
def parseNum : List Char → Option (Int × List Char)
  | [] => none
  | c :: rest =>
    if c = '-' then
      match takeDigits rest with
      | ([], _) => none
      | (ds, r) => some (-(Int.ofNat (digitsToNat ds)), r)
    else
      match takeDigits (c :: rest) with
      | ([], _) => none
      | (ds, r) => some (Int.ofNat (digitsToNat ds), r)

/-- Parser tasks: a value, the members of an object, the elements of an array. -/
inductive PTask where
  | pval | pmembers | pelems

/-- Parser results, matching the three tasks. -/
inductive POut where
  | jv : Json → POut
  | jm : List (String × Json) → POut
  | jl : List Json → POut

/-- Opening brace character. -/
def lbrace : Char := '\x7b'

/-- Closing brace character. -/
def rbrace : Char := '\x7d'

/-- Expect the given characters at the head of the input. -/
def expectChars : List Char → List Char → Option (List Char)
  | [], cs => some cs
  | p :: ps, c :: cs => if c = p then expectChars ps cs else none
  | _ :: _, [] => none

/-- Fuel-indexed JSON parser core. -/
def parseCore : Nat → PTask → List Char → Option (POut × List Char)
  | 0, _, _ => none
  | f + 1, .pval, cs =>
    match skipWs cs with
    | [] => none
    | c :: rest =>
      if c = '"' then
        match parseStrChars rest with
        | some (s, r) => some (.jv (.str (String.mk s)), r)
        | none => none
      else if c = lbrace then
        match skipWs rest with
        | d :: r2 =>
          if d = rbrace then some (.jv (.obj []), r2)
          else
            match parseCore f .pmembers (d :: r2) with
            | some (.jm l, r3) => some (.jv (.obj l), r3)
            | _ => none
        | [] => none
      else if c = '[' then
        match skipWs rest with
        | d :: r2 =>
          if d = ']' then some (.jv (.arr []), r2)
          else
            match parseCore f .pelems (d :: r2) with
            | some (.jl l, r3) => some (.jv (.arr l), r3)
            | _ => none
        | [] => none
      else if c = 't' then
        match expectChars ['r', 'u', 'e'] rest with
        | some r => some (.jv (.boolean true), r)
        | none => none
      else if c = 'f' then
        match expectChars ['a', 'l', 's', 'e'] rest with
        | some r => some (.jv (.boolean false), r)
        | none => none
      else if c = 'n' then
        match expectChars ['u', 'l', 'l'] rest with
        | some r => some (.jv .null, r)
        | none => none
      else
        match parseNum (c :: rest) with
        | some (n, r) => some (.jv (.num n), r)
        | none => none
  | f + 1, .pmembers, cs =>
    match skipWs cs with
    | c :: rest =>
      if c = '"' then
        match parseStrChars rest with
        | some (k, r) =>
          (match skipWs r with
           | ':' :: r2 =>
             match parseCore f .pval r2 with
             | some (.jv v, r3) =>
               (match skipWs r3 with
                | ',' :: r4 =>
                  (match parseCore f .pmembers r4 with
                   | some (.jm l, r5) => some (.jm ((String.mk k, v) :: l), r5)
                   | _ => none)
                | d :: r4 => if d = rbrace then some (.jm [(String.mk k, v)], r4) else none
                | [] => none)
             | _ => none
           | _ => none)
        | none => none
      else none
    | [] => none
  | f + 1, .pelems, cs =>
    match parseCore f .pval cs with
    | some (.jv v, r) =>
      (match skipWs r with
       | ',' :: r2 =>
         (match parseCore f .pelems r2 with
          | some (.jl l, r3) => some (.jl (v :: l), r3)
          | _ => none)
       | d :: r2 => if d = ']' then some (.jl [v], r2) else none
       | [] => none)
    | _ => none

/-- Model of the platform JSON.parse used by `safeParseJson`
(integer numeric literals; the claims exercise only this fragment). -/
def jsonParse (s : String) : Option Json :=
  match parseCore (2 * s.length + 4) .pval s.toList with
  | some (.jv j, rest) => if (skipWs rest).isEmpty then some j else none
  | _ => none

/-- safeParseJson from src/packages/react/src/utils.ts: structured decode of the
raw payload, falling back to the raw string when decoding fails. `Sum.inl` is a
successful structured decode, `Sum.inr` is the raw-string fallback. -/
def safeParseJson (raw : String) : Json ⊕ String :=
  match jsonParse raw with
  | some j => Sum.inl j
  | none => Sum.inr raw

/-- isReservedEvent from src/packages/react/src/utils.ts. -/
def isReservedEvent (eventName : String) : Bool :=
  eventName == "open" || eventName == "error" || eventName == "message"

/-- Characters that encodeURIComponent leaves unescaped besides alphanumerics. -/
def uriMark : List Char := ['-', '_', '.', '!', '~', '*', '\'', '(', ')']

/-- UTF-8 bytes of a code point. -/
def utf8Bytes (n : Nat) : List Nat :=
  if n < 128 then [n]
  else if n < 2048 then [192 + n / 64, 128 + n % 64]
  else if n < 65536 then [224 + n / 4096, 128 + (n / 64) % 64, 128 + n % 64]
  else [240 + n / 262144, 128 + (n / 4096) % 64, 128 + (n / 64) % 64, 128 + n % 64]

/-- Uppercase hexadecimal digit. -/
def hexDigitChar (n : Nat) : Char := if n < 10 then Char.ofNat (48 + n) else Char.ofNat (55 + n)

/-- Percent-encoding of one byte. -/
def percentByte (b : Nat) : String :=
  "%" ++ String.singleton (hexDigitChar (b / 16)) ++ String.singleton (hexDigitChar (b % 16))

/-- Encoding of one character under encodeURIComponent. -/
def encodeChar (c : Char) : String :=
  if ('A' ≤ c ∧ c ≤ 'Z') ∨ ('a' ≤ c ∧ c ≤ 'z') ∨ ('0' ≤ c ∧ c ≤ '9') ∨ c ∈ uriMark then
    String.singleton c
  else
    String.join ((utf8Bytes c.toNat).map percentByte)

/-- Model of the platform encodeURIComponent used by `buildUrl`. -/
def encodeURIComponent (s : String) : String := String.join (s.toList.map encodeChar)

/-- Argument of buildUrl: either a literal URL string or a \x7burl, query\x7d
record; the query is an ordered mapping from keys to string-or-absent values
(`none` models both null and undefined). -/
inductive UrlInput where
  | literal : String → UrlInput
  | opts : String → List (String × Option String) → UrlInput

/-- buildUrl from src/packages/react/src/utils.ts. -/
def buildUrl : UrlInput → String
  | .literal s => s
  | .opts url query =>
    let q := joinSep "&" ((query.filter (fun p => p.2.isSome)).map
      (fun p => encodeURIComponent p.1 ++ "=" ++ encodeURIComponent (p.2.getD "")))
    url ++ (if q = "" then "" else "?" ++ q)

/-- Association-list lookup, modelling Map.prototype.get on unique-key maps. -/
def lookupA {κ β : Type} [DecidableEq κ] (k : κ) : List (κ × β) → Option β
  | [] => none
  | p :: rest => if p.1 = k then some p.2 else lookupA k rest

/-- Association-list update, modelling Map.prototype.set. -/
def setA {κ β : Type} [DecidableEq κ] (k : κ) (v : β) : List (κ × β) → List (κ × β)
  | [] => [(k, v)]
  | p :: rest => if p.1 = k then (k, v) :: rest else p :: setA k v rest

/-- Association-list removal, modelling Map.prototype.delete. -/
def eraseA {κ β : Type} [DecidableEq κ] (k : κ) : List (κ × β) → List (κ × β)
  | [] => []
  | p :: rest => if p.1 = k then eraseA k rest else p :: eraseA k rest

/-- Element insertion, modelling Set.prototype.add. -/
def addSet {α : Type} [DecidableEq α] (x : α) (s : List α) : List α :=
  if x ∈ s then s else s ++ [x]

/-- Element removal, modelling Set.prototype.delete. -/
def eraseSet {α : Type} [DecidableEq α] (x : α) : List α → List α
  | [] => []
  | y :: rest => if y = x then eraseSet x rest else y :: eraseSet x rest

/-- A subscriber callback: an identity plus whether invoking it raises. -/
structure Handler where
  hid : Nat
  throws : Bool
deriving DecidableEq

/-- Mutable state of the receiver hook `useEventSource` (src/unnamed/part_000):
the underlying EventSource handle with its readyState (`none` models null),
the retry counter, the pending reconnect timer (carrying its delay), the
destroyed flag, the listener map and the attached named-dispatcher keys. -/
structure Receiver where
  es : Option Nat
  retry : Nat
  timer : Option Nat
  destroyed : Bool
  listeners : List (String × List Handler)
  dispatchers : List String
deriving DecidableEq

/-- Reconnect configuration of `useEventSource`. -/
structure ReconnectCfg where
  enabled : Bool
  initialDelayMs : Nat
  maxDelayMs : Nat
  maxRetries : Nat
deriving DecidableEq

/-- The default reconnect configuration from src/unnamed/part_000. -/
def defaultReconnectCfg : ReconnectCfg :=
  { enabled := true, initialDelayMs := 1000, maxDelayMs := 15000, maxRetries := 10 }

/-- The exponential backoff delay computed inside `scheduleReconnect`. -/
def delayFor (cfg : ReconnectCfg) (attempt : Nat) : Nat :=
  min (cfg.initialDelayMs * 2 ^ attempt) cfg.maxDelayMs

/-- scheduleReconnect from src/unnamed/part_000. -/
def scheduleReconnect (cfg : ReconnectCfg) (st : Receiver) : Receiver :=
  if !cfg.enabled || st.destroyed then st
  else if cfg.maxRetries ≤ st.retry then st
  else { st with retry := st.retry + 1, timer := some (delayFor cfg st.retry) }

/-- attachNamedIfNeeded from src/unnamed/part_000. -/
def attachNamedIfNeeded (st : Receiver) (name : String) : Receiver :=
  if isReservedEvent name then st
  else if st.es = none ∨ name ∈ st.dispatchers then st
  else { st with dispatchers := st.dispatchers ++ [name] }

/-- addListener from src/unnamed/part_000 (the registration path; the returned
unsubscribe closure is `removeListener`). -/
def addListener (st : Receiver) (name : String) (h : Handler) : Receiver :=
  attachNamedIfNeeded
    { st with listeners := setA name (addSet h ((lookupA name st.listeners).getD []))
                                st.listeners }
    name

/-- The unsubscribe closure returned by addListener in src/unnamed/part_000. -/
def removeListener (st : Receiver) (name : String) (h : Handler) : Receiver :=
  match lookupA name st.listeners with
  | none => st
  | some current =>
    if eraseSet h current ≠ [] then
      { st with listeners := setA name (eraseSet h current) st.listeners }
    else
      { st with listeners := eraseA name st.listeners,
                dispatchers := eraseSet name st.dispatchers }

/-- attachAllNamed from src/unnamed/part_000. -/
def attachAllNamed (st : Receiver) : Receiver :=
  st.listeners.foldl (fun s p => if isReservedEvent p.1 then s else attachNamedIfNeeded s p.1) st

/-- cleanup from src/unnamed/part_000: cancel the pending timer, detach every
named dispatcher, close and drop the underlying handle. -/
def cleanup (st : Receiver) : Receiver :=
  { st with timer := none, dispatchers := [], es := none }

/-- connect from src/unnamed/part_000: no-op when the handle reports OPEN,
otherwise clear destroyed, tear down, and open a fresh CONNECTING handle. -/
def connect (st : Receiver) : Receiver :=
  if st.es = some 1 then st
  else { cleanup { st with destroyed := false } with es := some 0 }

/-- disconnect from src/unnamed/part_000. -/
def disconnect (st : Receiver) : Receiver :=
  cleanup { st with destroyed := true }

/-- The onopen callback installed by connect. -/
def onOpen (st : Receiver) : Receiver :=
  attachAllNamed { st with retry := 0, es := some 1 }

/-- The onerror callback installed by connect: record the handle's readyState
and, when it is terminally CLOSED, evaluate the reconnect policy. -/
def onError (cfg : ReconnectCfg) (st : Receiver) (rs : Nat) : Receiver :=
  if rs = 2 then scheduleReconnect cfg { st with es := some rs }
  else { st with es := some rs }

/-- Internal events of the receiver: the reconnect timer firing and the
underlying handle's callbacks. -/
inductive IEvent where
  | timerFire
  | esOpen
  | esError (rs : Nat)
  | esMessage
  | esNamed (name : String)

/-- One internal step: `none` means the event cannot occur in this state
(no pending timer, or no live underlying handle / attached dispatcher). -/
def internalStep (cfg : ReconnectCfg) (st : Receiver) : IEvent → Option Receiver
  | .timerFire =>
    match st.timer with
    | some _ => some (connect { st with timer := none })
    | none => none
  | .esOpen => if st.es.isSome then some (onOpen st) else none
  | .esError rs => if st.es.isSome then some (onError cfg st rs) else none
  | .esMessage => if st.es.isSome then some st else none
  | .esNamed name => if st.es.isSome ∧ name ∈ st.dispatchers then some st else none

/-- An external subscribe or unsubscribe call. -/
inductive ROp where
  | sub (name : String) (h : Handler)
  | unsub (name : String) (h : Handler)

/-- Apply one subscribe/unsubscribe call. -/
def applyOp (st : Receiver) : ROp → Receiver
  | .sub name h => addListener st name h
  | .unsub name h => removeListener st name h

/-- Apply a sequence of subscribe/unsubscribe calls. -/
def applyOps (st : Receiver) (ops : List ROp) : Receiver := ops.foldl applyOp st

/-- A freshly mounted receiver whose underlying handle is live with the given
readyState and which has no subscriptions yet. -/
def connectedInit (rs : Nat) : Receiver :=
  { es := some rs, retry := 0, timer := none, destroyed := false,
    listeners := [], dispatchers := [] }

/-- The loop body of emit from src/unnamed/part_000: invoke every handler in
order with the same arguments; a raising handler is caught and reported.
Returns the invocations performed (handler id with its arguments) and the
ids whose failures were reported. -/
def emitRun {α : Type} (args : α) : List Handler → List (Nat × α) × List Nat
  | [] => ([], [])
  | h :: rest =>
    let r := emitRun args rest
    ((h.hid, args) :: r.1, if h.throws then h.hid :: r.2 else r.2)

/-- emit from src/unnamed/part_000. -/
def emit {α : Type} (st : Receiver) (name : String) (args : α) :
    List (Nat × α) × List Nat :=
  match lookupA name st.listeners with
  | none => ([], [])
  | some set => emitRun args set

/-- The receiver's published connection snapshot (EventSourceState in
src/unnamed/part_000's types). -/
structure EventSourceState where
  url : String
  connected : Bool
  readyState : Nat
  lastEventId : Option String
  lastEventName : Option String
  lastData : Option (Json ⊕ String)
  hasError : Bool

/-- The initial snapshot installed by useState. -/
def initialState (url : String) (lastEventId : Option String) : EventSourceState :=
  { url := url, connected := false, readyState := 0, lastEventId := lastEventId,
    lastEventName := none, lastData := none, hasError := false }

/-- A DOM MessageEvent as seen by a named dispatcher: the raw payload string
and the lastEventId (the empty string when the frame carried no id). -/
structure JsMessageEvent where
  data : String
  lastEventId : String

/-- The dispatch closure created by attachNamedIfNeeded in
src/unnamed/part_000: bail when no subscriber is registered, otherwise decode
the payload, publish the updated snapshot and emit to the handlers. -/
def dispatchNamed (parse : String → Json ⊕ String) (st : Receiver) (name : String)
    (s : EventSourceState) (ev : JsMessageEvent) :
    EventSourceState × (List (Nat × ((Json ⊕ String) × JsMessageEvent)) × List Nat) :=
  match lookupA name st.listeners with
  | none => (s, ([], []))
  | some set =>
    if set.isEmpty then (s, ([], []))
    else
      let d := parse ev.data
      ({ s with
          lastEventId := if ev.lastEventId = "" then s.lastEventId else some ev.lastEventId,
          lastEventName := some name,
          lastData := some d },
       emit st name (d, ev))

/-- The fields of one wire frame as recovered by the transport. -/
structure WireFrame where
  id : Option String
  event : Option String
  data : Option String

/-- Split on newline characters. -/
def splitOnNl : List Char → List (List Char)
  | [] => [[]]
  | c :: rest =>
    if c = '\n' then [] :: splitOnNl rest
    else
      match splitOnNl rest with
      | [] => [[c]]
      | l :: ls => (c :: l) :: ls

/-- Modelled from the spec: the §6 wire framing as consumed by the receiver's
transport (the browser EventSource primitive, which is not part of src/):
within a frame, a line `id: v` carries the event id, `event: v` the event
name and `data: v` the payload. -/
def parseWireFrame (frame : String) : WireFrame :=
  (splitOnNl frame.toList).foldl
    (fun acc line =>
      match expectChars "id: ".toList line with
      | some rest => { acc with id := some (String.mk rest) }
      | none =>
        match expectChars "event: ".toList line with
        | some rest => { acc with event := some (String.mk rest) }
        | none =>
          match expectChars "data: ".toList line with
          | some rest => { acc with data := some (String.mk rest) }
          | none => acc)
    { id := none, event := none, data := none }

/-- State of a server-side connection (SSEClient in
src/packages/server/src/client.ts): its generated id, optional user id, the
closed flag, whether the underlying writer's write throws (a broken pipe),
the heartbeat timer handle (carrying its interval), the frames successfully
written to the pipe, and whether the write end was closed. -/
structure SClient where
  id : String
  userId : Option String
  closed : Bool
  failing : Bool
  hb : Option Nat
  written : List String
  pipeClosed : Bool
deriving DecidableEq

/-- A ServerEvent record (src/packages/server/src/types.ts). `none` fields are
absent/undefined. -/
structure SEvent where
  event : Option String
  data : Option Json
  id : Option String
  retry : Option Nat

/-- SSEClient.formatMessage from src/packages/server/src/client.ts. The JS
truthiness guards drop absent fields, empty id/event strings and a zero
retry; string data is written literally, other data is JSON-stringified.
The byte encoding of the frame is modelled by the string itself. -/
def formatMessage (evt : SEvent) : String :=
  (match evt.id with
   | some s => if s = "" then "" else "id: " ++ s ++ "\n"
   | none => "")
  ++ (match evt.event with
      | some s => if s = "" then "" else "event: " ++ s ++ "\n"
      | none => "")
  ++ (match evt.retry with
      | some r => if r = 0 then "" else "retry: " ++ toString r ++ "\n"
      | none => "")
  ++ (match evt.data with
      | some d => "data: " ++ (match d with | .str s => s | j => jsonStringify j) ++ "\n"
      | none => "")
  ++ "\n"

/-- SSEClient.stopHeartbeat. -/
def SClient.stopHeartbeat (c : SClient) : SClient := { c with hb := none }

/-- SSEClient.close: a no-op when already closed; otherwise mark closed, stop
the heartbeat and close the write end (a failure there is swallowed). -/
def SClient.close (c : SClient) : SClient :=
  if c.closed then c
  else { c with closed := true, hb := none, pipeClosed := true }

/-- SSEClient.writeRaw: a no-op when closed; a throwing write is caught and
closes the connection instead of surfacing. -/
def SClient.writeRaw (c : SClient) (buf : String) : SClient :=
  if c.closed then c
  else if c.failing then c.close
  else { c with written := c.written ++ [buf] }

/-- SSEClient.send. -/
def SClient.send (c : SClient) (evt : SEvent) : SClient :=
  c.writeRaw (formatMessage evt)

/-- SSEClient.ping at the given clock value. -/
def SClient.ping (c : SClient) (now : Nat) : SClient :=
  c.writeRaw (": ping " ++ toString now ++ "\n\n")

/-- SSEClient.startHeartbeat: stop any existing heartbeat timer, then install
a new one (the source performs no closed check here). -/
def SClient.startHeartbeat (c : SClient) (ms : Nat) : SClient :=
  { c.stopHeartbeat with hb := some ms }

/-- One heartbeat tick: ping; a write failure is already absorbed by
writeRaw, which closes the connection. -/
def SClient.heartbeatTick (c : SClient) (now : Nat) : SClient := c.ping now

/-- SSEClient.isClosed. -/
def SClient.isClosed (c : SClient) : Bool := c.closed

/-- The connection registry from src/unnamed/part_001: the primary id index
and the derived userId index. -/
structure SSEManager where
  clientsById : List (String × SClient)
  clientIdsByUser : List (String × List String)
deriving DecidableEq

/-- SSEManager.addClient from src/unnamed/part_001. -/
def SSEManager.addClient (m : SSEManager) (c : SClient) : SSEManager :=
  match c.userId with
  | none => { m with clientsById := setA c.id c m.clientsById }
  | some u =>
    { clientsById := setA c.id c m.clientsById,
      clientIdsByUser :=
        setA u (addSet c.id ((lookupA u m.clientIdsByUser).getD [])) m.clientIdsByUser }

/-- SSEManager.removeClient from src/unnamed/part_001: clean both indexes
first, then close the removed connection (the close acts on the connection
object, which is no longer referenced by the registry). -/
def SSEManager.removeClient (m : SSEManager) (clientId : String) : SSEManager :=
  match lookupA clientId m.clientsById with
  | none => m
  | some c =>
    match c.userId with
    | none => { m with clientsById := eraseA clientId m.clientsById }
    | some u =>
      match lookupA u m.clientIdsByUser with
      | none => { m with clientsById := eraseA clientId m.clientsById }
      | some s =>
        if eraseSet clientId s = [] then
          { clientsById := eraseA clientId m.clientsById,
            clientIdsByUser := eraseA u m.clientIdsByUser }
        else
          { clientsById := eraseA clientId m.clientsById,
            clientIdsByUser := setA u (eraseSet clientId s) m.clientIdsByUser }

/-- SSEManager.sendToClient from src/unnamed/part_001. -/
def SSEManager.sendToClient (m : SSEManager) (clientId : String) (evt : SEvent) : SSEManager :=
  match lookupA clientId m.clientsById with
  | none => m
  | some c => { m with clientsById := setA clientId (c.send evt) m.clientsById }

/-- SSEManager.broadcast from src/unnamed/part_001: fan out the send to every
registered connection; each send absorbs its own write failure, so the
combined completion never rejects. -/
def SSEManager.broadcast (m : SSEManager) (evt : SEvent) : SSEManager :=
  { m with clientsById := m.clientsById.map (fun p => (p.1, p.2.send evt)) }

/-- SSEManager.clientsCount from src/unnamed/part_001. -/
def SSEManager.clientsCount (m : SSEManager) : Nat := m.clientsById.length

/-- SSEManager.usersCount from src/unnamed/part_001. -/
def SSEManager.usersCount (m : SSEManager) : Nat := m.clientIdsByUser.length

/-- The empty registry. -/
def SSEManager.empty : SSEManager := { clientsById := [], clientIdsByUser := [] }

/-- The `SSEManager` embedded in src/packages/server/src/client.ts keys its
primary index by `client.sessionId`; `SSEClient` declares no `sessionId`
property, so in JavaScript the access evaluates to undefined. The key type is
therefore `Option String` and the computed key is always `none`. -/
def SClient.sessionId (_ : SClient) : Option String := none

/-- The connection registry embedded at the bottom of
src/packages/server/src/client.ts (no user index). -/
structure SSEManagerEmbedded where
  clientsById : List (Option String × SClient)
deriving DecidableEq

/-- addClient of the embedded registry: keys by `client.sessionId`. -/
def SSEManagerEmbedded.addClient (m : SSEManagerEmbedded) (c : SClient) : SSEManagerEmbedded :=
  { clientsById := setA c.sessionId c m.clientsById }

/-- sendToClient of the embedded registry: looks up the string id passed by
the caller, which can never equal the undefined key used at registration. -/
def SSEManagerEmbedded.sendToClient (m : SSEManagerEmbedded) (clientId : String)
    (evt : SEvent) : SSEManagerEmbedded :=
  match lookupA (some clientId) m.clientsById with
  | none => m
  | some c => { clientsById := setA (some clientId) (c.send evt) m.clientsById }

/-- clientsCount of the embedded registry. -/
def SSEManagerEmbedded.clientsCount (m : SSEManagerEmbedded) : Nat := m.clientsById.length

/-- The empty embedded registry. -/
def SSEManagerEmbedded.empty : SSEManagerEmbedded := { clientsById := [] }

/-- Iterated scheduling from a fresh connected receiver under the default
configuration, with no timer firing in between. -/
def schedIter (n : Nat) : Receiver :=
  (scheduleReconnect defaultReconnectCfg)^[n] (connectedInit 1)

/-- The record of the round-trip scenario. -/
def c3Record : SEvent :=
  { event := some "x", data := some (.obj [("a", .num 1)]), id := some "42", retry := none }

/-- A receiver subscribed to the named event "x". -/
def c3Receiver : Receiver :=
  { connectedInit 1 with listeners := [("x", [{ hid := 1, throws := false }])],
                         dispatchers := ["x"] }

/-- A healthy open server connection. -/
def okClientA : SClient :=
  { id := "a", userId := none, closed := false, failing := false, hb := none,
    written := [], pipeClosed := false }

/-- An open server connection whose underlying write throws. -/
def failClientB : SClient := { okClientA with id := "b", failing := true }

/-- A second healthy open server connection. -/
def okClientC : SClient := { okClientA with id := "c" }

/-- A sample broadcast record. -/
def demoEvt : SEvent := { event := none, data := some (.str "hello"), id := none, retry := none }

/-- A registry holding three connections, the middle one failing. -/
def c5Manager : SSEManager :=
  { clientsById := [("a", okClientA), ("b", failClientB), ("c", okClientC)],
    clientIdsByUser := [] }

/-- A connection that has already been closed. -/
def c6Closed : SClient := { okClientA with id := "z", closed := true, pipeClosed := true }

/-- Two open connections of the same user. -/
def c7ClientA : SClient := { okClientA with userId := some "u" }

/-- Second connection of the same user. -/
def c7ClientB : SClient := { okClientA with id := "b", userId := some "u" }

/-- A registry holding the two connections of user "u". -/
def c7Manager : SSEManager :=
  { clientsById := [("a", c7ClientA), ("b", c7ClientB)],
    clientIdsByUser := [("u", ["a", "b"])] }

/-- A receiver with two handlers registered for "notification", the first of
which throws. -/
def c8Receiver : Receiver :=
  { connectedInit 1 with
      listeners := [("notification", [{ hid := 1, throws := true },
                                      { hid := 2, throws := false }])],
      dispatchers := ["notification"] }

/-- A first client for the registry-equivalence scenario. -/
def c10Client1 : SClient := { okClientA with id := "c1" }

/-- A second, distinct client for the registry-equivalence scenario. -/
def c10Client2 : SClient := { okClientA with id := "c2" }

/-- Map keys as a list. -/
def keysOf {κ β : Type} (l : List (κ × β)) : List κ := l.map Prod.fst

/-- Well-formedness of the registry indices, as maintained by the part_001
manager: unique keys in both maps, every user entry is a nonempty
duplicate-free set of ids of that user's registered connections, and every
registered connection with a userId appears in that user's set. -/
def SSEManager.wf (m : SSEManager) : Prop :=
  (keysOf m.clientsById).Nodup
  ∧ (keysOf m.clientIdsByUser).Nodup
  ∧ (∀ p ∈ m.clientIdsByUser, p.2 ≠ [] ∧ p.2.Nodup
      ∧ ∀ cid ∈ p.2, ∃ q ∈ m.clientsById, q.1 = cid ∧ q.2.userId = some p.1)
  ∧ (∀ q ∈ m.clientsById, ∀ u ∈ q.2.userId.toList,
      ∃ p ∈ m.clientIdsByUser, p.1 = u ∧ q.1 ∈ p.2)

/-- The registry invariant of the receiver's listener bookkeeping: a live
underlying handle, no empty handler set stored, and a dispatcher attached for
exactly the non-reserved names present in the listener map. -/
def RegInv (st : Receiver) : Prop :=
  st.es.isSome = true
  ∧ (∀ n hs, lookupA n st.listeners = some hs → hs ≠ [])
  ∧ (∀ n : String, n ∈ st.dispatchers
      ↔ (isReservedEvent n = false ∧ (lookupA n st.listeners).isSome = true))

example : jsonStringify (.obj [("a", .num 1)]) = "\x7b\"a\":1\x7d" := rfl
example : jsonParse "\x7b\"a\":1\x7d" = some (.obj [("a", .num 1)]) := rfl
example : safeParseJson "not-json" = Sum.inr "not-json" := rfl
example : buildUrl (.opts "/api/sse" [("user_id", some "u1"), ("channel", none)])
    = "/api/sse?user_id=u1" := by decide
example : formatMessage c3Record = "id: 42\nevent: x\ndata: \x7b\"a\":1\x7d\n\n" := rfl
example : parseWireFrame (formatMessage c3Record)
    = { id := some "42", event := some "x", data := some "\x7b\"a\":1\x7d" } := rfl

theorem lookupA_setA_self {κ β : Type} [DecidableEq κ] (k : κ) (v : β) (l : List (κ × β)) :
    lookupA k (setA k v l) = some v := by
  induction l with
  | nil => simp [setA, lookupA]
  | cons p rest ih =>
    by_cases h : p.1 = k
    · simp [setA, h, lookupA]
    · simp [setA, h, lookupA, ih]

theorem lookupA_setA_ne {κ β : Type} [DecidableEq κ] {k k' : κ} (v : β) (l : List (κ × β))
    (h : k' ≠ k) : lookupA k' (setA k v l) = lookupA k' l := by
  induction l with
  | nil => simp [setA, lookupA, Ne.symm h]
  | cons p rest ih =>
    by_cases hp : p.1 = k
    · subst hp
      simp [setA, lookupA, Ne.symm h]
    · simp only [setA, hp, if_false, lookupA]
      by_cases hq : p.1 = k'
      · simp [hq]
      · simp [hq, ih]

theorem lookupA_eraseA_self {κ β : Type} [DecidableEq κ] (k : κ) (l : List (κ × β)) :
    lookupA k (eraseA k l) = none := by
  induction l with
  | nil => simp [eraseA, lookupA]
  | cons p rest ih =>
    by_cases h : p.1 = k
    · simp [eraseA, h, ih]
    · simp [eraseA, h, lookupA, ih]

theorem lookupA_eraseA_ne {κ β : Type} [DecidableEq κ] {k k' : κ} (l : List (κ × β))
    (h : k' ≠ k) : lookupA k' (eraseA k l) = lookupA k' l := by
  induction l with
  | nil => simp [eraseA, lookupA]
  | cons p rest ih =>
    by_cases hp : p.1 = k
    · subst hp
      simp [eraseA, lookupA, Ne.symm h, ih]
    · simp only [eraseA, hp, if_false, lookupA]
      by_cases hq : p.1 = k'
      · simp [hq]
      · simp [hq, ih]

theorem lookupA_mem {κ β : Type} [DecidableEq κ] {k : κ} {v : β} :
    ∀ {l : List (κ × β)}, lookupA k l = some v → (k, v) ∈ l := by
  intro l
  induction l with
  | nil =>
    intro h
    simp [lookupA] at h
  | cons p rest ih =>
    intro h
    obtain ⟨a, b⟩ := p
    by_cases hp : a = k
    · subst hp
      simp [lookupA] at h
      subst h
      exact List.mem_cons_self _ _
    · simp [lookupA, hp] at h
      exact List.mem_cons_of_mem _ (ih h)

theorem lookupA_isSome_of_mem {κ β : Type} [DecidableEq κ] {k : κ} {v : β} {l : List (κ × β)}
    (h : (k, v) ∈ l) : (lookupA k l).isSome = true := by
  induction l with
  | nil => simp at h
  | cons p rest ih =>
    rcases List.mem_cons.mp h with h1 | h1
    · simp [lookupA, ← h1]
    · by_cases hp : p.1 = k
      · simp [lookupA, hp]
      · simp [lookupA, hp, ih h1]

theorem lookupA_of_mem_nodup {κ β : Type} [DecidableEq κ] {k : κ} {v : β} {l : List (κ × β)}
    (hnd : (keysOf l).Nodup) (h : (k, v) ∈ l) : lookupA k l = some v := by
  induction l with
  | nil => simp at h
  | cons p rest ih =>
    simp only [keysOf, List.map_cons, List.nodup_cons] at hnd
    rcases List.mem_cons.mp h with h1 | h1
    · rw [← h1]
      simp [lookupA]
    · by_cases hp : p.1 = k
      · exfalso
        exact hnd.1 (hp ▸ (List.mem_map.mpr ⟨(k, v), h1, rfl⟩))
      · simpa [lookupA, hp] using ih hnd.2 h1

theorem mem_eraseA {κ β : Type} [DecidableEq κ] {k : κ} {q : κ × β} {l : List (κ × β)} :
    q ∈ eraseA k l ↔ q ∈ l ∧ q.1 ≠ k := by
  induction l with
  | nil => simp [eraseA]
  | cons p rest ih =>
    rw [eraseA]
    by_cases hp : p.1 = k
    · rw [if_pos hp, ih]
      simp only [List.mem_cons]
      constructor
      · rintro ⟨h1, h2⟩
        exact ⟨Or.inr h1, h2⟩
      · rintro ⟨h1 | h1, h2⟩
        · subst h1
          exact absurd hp h2
        · exact ⟨h1, h2⟩
    · rw [if_neg hp]
      simp only [List.mem_cons, ih]
      constructor
      · rintro (h1 | ⟨h1, h2⟩)
        · subst h1
          exact ⟨Or.inl rfl, hp⟩
        · exact ⟨Or.inr h1, h2⟩
      · rintro ⟨h1 | h1, h2⟩
        · exact Or.inl h1
        · exact Or.inr ⟨h1, h2⟩

theorem mem_eraseSet {α : Type} [DecidableEq α] {a x : α} {s : List α} :
    a ∈ eraseSet x s ↔ a ∈ s ∧ a ≠ x := by
  induction s with
  | nil => simp [eraseSet]
  | cons y rest ih =>
    rw [eraseSet]
    by_cases hy : y = x
    · rw [if_pos hy, ih]
      simp only [List.mem_cons]
      constructor
      · rintro ⟨h1, h2⟩
        exact ⟨Or.inr h1, h2⟩
      · rintro ⟨h1 | h1, h2⟩
        · subst h1
          exact absurd hy h2
        · exact ⟨h1, h2⟩
    · rw [if_neg hy]
      simp only [List.mem_cons, ih]
      constructor
      · rintro (h1 | ⟨h1, h2⟩)
        · subst h1
          exact ⟨Or.inl rfl, hy⟩
        · exact ⟨Or.inr h1, h2⟩
      · rintro ⟨h1 | h1, h2⟩
        · exact Or.inl h1
        · exact Or.inr ⟨h1, h2⟩

theorem joinSep_length_ge (sep : String) (x : String) (xs : List String) :
    x.length ≤ (joinSep sep (x :: xs)).length := by
  cases xs with
  | nil => exact Nat.le_refl _
  | cons y ys =>
    rw [joinSep]
    simp only [String.length_append]
    omega

theorem mem_addSet {α : Type} [DecidableEq α] {a x : α} {s : List α} :
    a ∈ addSet x s ↔ a ∈ s ∨ a = x := by
  unfold addSet
  by_cases h : x ∈ s
  · rw [if_pos h]
    constructor
    · exact Or.inl
    · rintro (h1 | h1)
      · exact h1
      · exact h1 ▸ h
  · rw [if_neg h]
    simp

theorem addSet_ne_nil {α : Type} [DecidableEq α] (x : α) (s : List α) : addSet x s ≠ [] := by
  unfold addSet
  by_cases h : x ∈ s
  · rw [if_pos h]
    rintro rfl
    simp at h
  · rw [if_neg h]
    simp

/-- C1: under the default configuration the backoff delay for attempt n is
min(1000·2^n, 15000); iterated scheduling from a fresh receiver produces the
delays 1000, 2000, 4000, 8000, 15000, 15000, and an eleventh scheduling
attempt is a no-op once attempt has reached maxRetries = 10; in general a
retry is scheduled exactly when reconnect is enabled, the machine is not
destroyed and attempt < maxRetries, and scheduling increments the attempt
counter while installing a timer for the computed delay. -/
theorem reconnect_backoff_policy :
    (∀ n, delayFor defaultReconnectCfg n = min (1000 * 2 ^ n) 15000)
    ∧ ((List.range 6).map (fun n => (schedIter (n + 1)).timer)
        = [some 1000, some 2000, some 4000, some 8000, some 15000, some 15000])
    ∧ schedIter 11 = schedIter 10
    ∧ (∀ (cfg : ReconnectCfg) (st : Receiver),
        cfg.enabled = false ∨ st.destroyed = true ∨ cfg.maxRetries ≤ st.retry →
        scheduleReconnect cfg st = st)
    ∧ (∀ (cfg : ReconnectCfg) (st : Receiver),
        cfg.enabled = true → st.destroyed = false → st.retry < cfg.maxRetries →
        scheduleReconnect cfg st
          = { st with retry := st.retry + 1, timer := some (delayFor cfg st.retry) }) := by
  refine ⟨fun n => rfl, by decide, by decide, ?_, ?_⟩
  · rintro cfg st (h | h | h)
    · simp [scheduleReconnect, h]
    · simp [scheduleReconnect, h]
    · simp only [scheduleReconnect]
      split <;> simp [h]
  · intro cfg st h1 h2 h3
    simp [scheduleReconnect, h1, h2, Nat.not_le_of_lt h3]

/-- Witness for C1: one concrete scheduling step from the fresh state. -/
theorem reconnect_backoff_policy_witness :
    scheduleReconnect defaultReconnectCfg (connectedInit 1)
      = { connectedInit 1 with retry := 1, timer := some 1000 } := by
  have h := reconnect_backoff_policy.2.2.2.2 defaultReconnectCfg (connectedInit 1)
    rfl rfl (by decide)
  exact h

/-- C9: buildUrl returns a literal string unchanged; for a \x7burl, query\x7d
input it keeps exactly the entries with a present value, percent-encodes each
kept key and value, joins them with & and appends them after ?, appending
nothing when no entry survives; in particular the user_id/channel scenario. -/
theorem buildUrl_spec :
    (∀ s, buildUrl (.literal s) = s)
    ∧ (∀ url query,
        buildUrl (.opts url query)
          = url ++
            (if query.filter (fun p => p.2.isSome) = [] then ""
             else "?" ++ joinSep "&" ((query.filter (fun p => p.2.isSome)).map
                    (fun p => encodeURIComponent p.1 ++ "=" ++ encodeURIComponent (p.2.getD "")))))
    ∧ buildUrl (.opts "/api/sse" [("user_id", some "u1"), ("channel", none)])
        = "/api/sse?user_id=u1" := by
  refine ⟨fun s => rfl, ?_, by decide⟩
  intro url query
  simp only [buildUrl]
  rcases hk : query.filter (fun p => p.2.isSome) with _ | ⟨x, xs⟩
  · simp [hk, joinSep]
  · have hA : 1 ≤ (encodeURIComponent x.1 ++ "=" ++ encodeURIComponent (x.2.getD "")).length := by
      simp only [String.length_append, show ("=" : String).length = 1 from rfl]
      omega
    have hq : joinSep "&" (List.map
        (fun p => encodeURIComponent p.1 ++ "=" ++ encodeURIComponent (p.2.getD ""))
        (x :: xs)) ≠ "" := by
      simp only [List.map_cons]
      intro hcon
      have hle := joinSep_length_ge "&"
        (encodeURIComponent x.1 ++ "=" ++ encodeURIComponent (x.2.getD ""))
        (List.map (fun p => encodeURIComponent p.1 ++ "=" ++ encodeURIComponent (p.2.getD "")) xs)
      rw [hcon, show ("" : String).length = 0 from rfl] at hle
      omega
    simp only [hk]
    rw [if_neg hq, if_neg (by simp : ¬(x :: xs = []))]

/-- C10 (divergence witness): in the part_001 registry, addClient followed by
sendToClient with the client's id delivers the record and two adds give
clientsCount 2; in the registry embedded in client.ts the client is keyed by
the undefined sessionId, so the same sendToClient is a no-op and two adds
give clientsCount 1. -/
theorem manager_equivalence_divergence :
    ((SSEManager.empty.addClient c10Client1).sendToClient "c1" demoEvt).clientsById
        = [("c1", c10Client1.send demoEvt)]
    ∧ (c10Client1.send demoEvt).written = [formatMessage demoEvt]
    ∧ (SSEManagerEmbedded.empty.addClient c10Client1).sendToClient "c1" demoEvt
        = SSEManagerEmbedded.empty.addClient c10Client1
    ∧ (SSEManagerEmbedded.empty.addClient c10Client1).clientsById = [(none, c10Client1)]
    ∧ ((SSEManager.empty.addClient c10Client1).addClient c10Client2).clientsCount = 2
    ∧ ((SSEManagerEmbedded.empty.addClient c10Client1).addClient c10Client2).clientsCount = 1 := by
  refine ⟨by decide, ?_, by decide, by decide, by decide, by decide⟩
  rfl

/-- C3: the frame built by the sender's formatter for the record
event "x", data \x7ba:1\x7d, id "42", once its payload line is decoded by
the receiver's default decoder and run through the named-event dispatcher,
yields data \x7ba:1\x7d and a snapshot with lastEventId "42" and
lastEventName "x". -/
theorem wire_format_roundtrip :
    formatMessage c3Record = "id: 42\nevent: x\ndata: \x7b\"a\":1\x7d\n\n"
    ∧ parseWireFrame (formatMessage c3Record)
        = { id := some "42", event := some "x", data := some "\x7b\"a\":1\x7d" }
    ∧ (dispatchNamed safeParseJson c3Receiver "x" (initialState "/api/sse" none)
        { data := (parseWireFrame (formatMessage c3Record)).data.getD "",
          lastEventId := (parseWireFrame (formatMessage c3Record)).id.getD "" }).1
        = { url := "/api/sse", connected := false, readyState := 0,
            lastEventId := some "42", lastEventName := some "x",
            lastData := some (Sum.inl (.obj [("a", .num 1)])), hasError := false } :=
  ⟨rfl, rfl, rfl⟩

theorem attachNamedIfNeeded_es (st : Receiver) (name : String) :
    (attachNamedIfNeeded st name).es = st.es
    ∧ (attachNamedIfNeeded st name).timer = st.timer := by
  unfold attachNamedIfNeeded
  split
  · exact ⟨rfl, rfl⟩
  · split
    · exact ⟨rfl, rfl⟩
    · exact ⟨rfl, rfl⟩

theorem applyOp_es_timer (st : Receiver) (op : ROp) :
    (applyOp st op).es = st.es ∧ (applyOp st op).timer = st.timer := by
  cases op with
  | sub name h =>
    exact (attachNamedIfNeeded_es _ _)
  | unsub name h =>
    simp only [applyOp, removeListener]
    split
    · exact ⟨rfl, rfl⟩
    · split
      · exact ⟨rfl, rfl⟩
      · exact ⟨rfl, rfl⟩

theorem applyOps_es_timer (ops : List ROp) :
    ∀ st : Receiver, (applyOps st ops).es = st.es ∧ (applyOps st ops).timer = st.timer := by
  induction ops with
  | nil =>
    intro st
    exact ⟨rfl, rfl⟩
  | cons op rest ih =>
    intro st
    have h1 := applyOp_es_timer st op
    have h2 := ih (applyOp st op)
    exact ⟨h2.1.trans h1.1, h2.2.trans h1.2⟩

/-- C4: after disconnect() the pending retry timer (if one was scheduled) is
cancelled, and — whatever subscribe/unsubscribe calls follow — no internal
event of the torn-down handle can occur: the timer cannot fire and no
open/error/message/named dispatcher can be invoked, until connect() is
called again. -/
theorem disconnect_quiescence (cfg : ReconnectCfg) (st : Receiver) (ops : List ROp)
    (e : IEvent) :
    (disconnect st).timer = none
    ∧ internalStep cfg (applyOps (disconnect st) ops) e = none := by
  have hes : (applyOps (disconnect st) ops).es = none := by
    rw [(applyOps_es_timer ops (disconnect st)).1]
    rfl
  have htm : (applyOps (disconnect st) ops).timer = none := by
    rw [(applyOps_es_timer ops (disconnect st)).2]
    rfl
  refine ⟨rfl, ?_⟩
  cases e with
  | timerFire => simp [internalStep, htm]
  | esOpen => simp [internalStep, hes]
  | esError rs => simp [internalStep, hes]
  | esMessage => simp [internalStep, hes]
  | esNamed name => simp [internalStep, hes]

/-- C5: broadcast fans the record out to every registered connection
independently: each entry is replaced by the result of its own send, a
healthy connection receives exactly the formatted frame appended to its
pipe, and a connection whose write throws is closed with nothing written
and no failure surfaced to the broadcast caller. -/
theorem broadcast_isolated_failure (m : SSEManager) (evt : SEvent) (cid : String)
    (c : SClient) (hmem : (cid, c) ∈ m.clientsById) :
    (cid, c.send evt) ∈ (m.broadcast evt).clientsById
    ∧ (c.closed = false → c.failing = false →
        (c.send evt).written = c.written ++ [formatMessage evt] ∧ (c.send evt).closed = false)
    ∧ (c.closed = false → c.failing = true →
        (c.send evt).closed = true ∧ (c.send evt).written = c.written) := by
  refine ⟨?_, ?_, ?_⟩
  · simp only [SSEManager.broadcast]
    exact List.mem_map.mpr ⟨(cid, c), hmem, rfl⟩
  · intro h1 h2
    simp [SClient.send, SClient.writeRaw, h1, h2]
  · intro h1 h2
    simp [SClient.send, SClient.writeRaw, SClient.close, h1, h2]

/-- Witness for C5 on a three-connection registry whose middle connection
fails: the failing one is closed with nothing written, a healthy one still
receives the frame. -/
theorem broadcast_isolated_failure_witness :
    (("b", failClientB.send demoEvt) ∈ (c5Manager.broadcast demoEvt).clientsById
      ∧ (failClientB.send demoEvt).closed = true
      ∧ (failClientB.send demoEvt).written = failClientB.written)
    ∧ (("a", okClientA.send demoEvt) ∈ (c5Manager.broadcast demoEvt).clientsById
      ∧ (okClientA.send demoEvt).written = okClientA.written ++ [formatMessage demoEvt]) := by
  have hb := broadcast_isolated_failure c5Manager demoEvt "b" failClientB (by decide)
  have ha := broadcast_isolated_failure c5Manager demoEvt "a" okClientA (by decide)
  exact ⟨⟨hb.1, (hb.2.2 rfl rfl).1, (hb.2.2 rfl rfl).2⟩, ha.1, (ha.2.1 rfl rfl).1⟩

/-- C6: close() is idempotent — a second call leaves the connection exactly
as the first left it, and the result is always marked closed; once closed,
every write (send, ping, heartbeat tick) is a no-op leaving the whole state
unchanged, and startHeartbeat never writes to the pipe. -/
theorem close_idempotent_closed_noop (c : SClient) :
    SClient.close (SClient.close c) = SClient.close c
    ∧ (SClient.close c).closed = true
    ∧ (c.closed = true →
        (∀ buf, c.writeRaw buf = c)
        ∧ (∀ evt, c.send evt = c)
        ∧ (∀ now, c.ping now = c)
        ∧ (∀ now, c.heartbeatTick now = c))
    ∧ (∀ ms, (c.startHeartbeat ms).written = c.written) := by
  refine ⟨?_, ?_, ?_, ?_⟩
  · by_cases h : c.closed
    · simp [SClient.close, h]
    · simp [SClient.close, h]
  · by_cases h : c.closed
    · simp [SClient.close, h]
    · simp [SClient.close, h]
  · intro h
    refine ⟨?_, ?_, ?_, ?_⟩
    · intro buf
      simp [SClient.writeRaw, h]
    · intro evt
      simp [SClient.send, SClient.writeRaw, h]
    · intro now
      simp [SClient.ping, SClient.writeRaw, h]
    · intro now
      simp [SClient.heartbeatTick, SClient.ping, SClient.writeRaw, h]
  · intro ms
    rfl

/-- Witness for C6 at a concrete closed connection. -/
theorem close_idempotent_closed_noop_witness :
    c6Closed.writeRaw "x" = c6Closed ∧ c6Closed.send demoEvt = c6Closed
    ∧ c6Closed.ping 5 = c6Closed ∧ c6Closed.heartbeatTick 5 = c6Closed := by
  have h := (close_idempotent_closed_noop c6Closed).2.2.1 rfl
  exact ⟨h.1 "x", h.2.1 demoEvt, h.2.2.1 5, h.2.2.2 5⟩

theorem emitRun_eq {α : Type} (args : α) (hs : List Handler) :
    emitRun args hs
      = (hs.map (fun f => (f.hid, args)),
         (hs.filter (fun f => f.throws)).map (fun f => f.hid)) := by
  induction hs with
  | nil => rfl
  | cons h rest ih =>
    simp only [emitRun, ih, List.map_cons, List.filter_cons]
    by_cases ht : h.throws
    · simp [ht]
    · simp [ht]

/-- C8: on a dispatch, the handlers registered for the event name are all
invoked, in registration order, each with the same arguments; the throwing
ones are exactly the reported failures and they do not prevent any later
handler from being invoked. -/
theorem emit_order_and_isolation {α : Type} (st : Receiver) (name : String) (args : α)
    (hs : List Handler) (h : lookupA name st.listeners = some hs) :
    emit st name args
      = (hs.map (fun f => (f.hid, args)),
         (hs.filter (fun f => f.throws)).map (fun f => f.hid)) := by
  unfold emit
  rw [h]
  exact emitRun_eq args hs

/-- Witness for C8: two handlers for "notification", the first throws; both
are invoked in order with the same argument and only the first is reported. -/
theorem emit_order_and_isolation_witness :
    emit c8Receiver "notification" (0 : Nat) = ([(1, 0), (2, 0)], [1]) := by
  have h := emit_order_and_isolation c8Receiver "notification" (0 : Nat)
    [{ hid := 1, throws := true }, { hid := 2, throws := false }] (by decide)
  exact h

theorem addListener_es (st : Receiver) (name : String) (h : Handler) :
    (addListener st name h).es = st.es :=
  (attachNamedIfNeeded_es _ _).1

theorem attachNamedIfNeeded_listeners (st : Receiver) (name : String) :
    (attachNamedIfNeeded st name).listeners = st.listeners := by
  unfold attachNamedIfNeeded
  split
  · rfl
  · split
    · rfl
    · rfl

theorem attachNamedIfNeeded_dispatchers (st : Receiver) (name : String) :
    (attachNamedIfNeeded st name).dispatchers
      = if isReservedEvent name = true then st.dispatchers
        else if st.es = none ∨ name ∈ st.dispatchers then st.dispatchers
        else st.dispatchers ++ [name] := by
  unfold attachNamedIfNeeded
  split
  · rfl
  · split
    · rfl
    · rfl

theorem addListener_listeners (st : Receiver) (name : String) (h : Handler) :
    (addListener st name h).listeners
      = setA name (addSet h ((lookupA name st.listeners).getD [])) st.listeners :=
  attachNamedIfNeeded_listeners _ _

theorem addListener_dispatchers (st : Receiver) (name : String) (h : Handler) :
    (addListener st name h).dispatchers
      = if isReservedEvent name = true then st.dispatchers
        else if st.es = none ∨ name ∈ st.dispatchers then st.dispatchers
        else st.dispatchers ++ [name] :=
  attachNamedIfNeeded_dispatchers
    { st with listeners := setA name (addSet h ((lookupA name st.listeners).getD []))
                                st.listeners }
    name

theorem regInv_addListener (st : Receiver) (name : String) (h : Handler) (inv : RegInv st) :
    RegInv (addListener st name h) := by
  obtain ⟨hes, hne, hdisp⟩ := inv
  refine ⟨?_, ?_, ?_⟩
  · rw [addListener_es]
    exact hes
  · intro n hs hlk
    rw [addListener_listeners] at hlk
    by_cases hn : n = name
    · subst hn
      rw [lookupA_setA_self] at hlk
      cases hlk
      exact addSet_ne_nil _ _
    · rw [lookupA_setA_ne _ _ hn] at hlk
      exact hne n hs hlk
  · intro n
    rw [addListener_dispatchers, addListener_listeners]
    by_cases hres : isReservedEvent name = true
    · rw [if_pos hres]
      by_cases hn : n = name
      · subst hn
        constructor
        · intro hmem
          rcases (hdisp n).mp hmem with ⟨hf, _⟩
          rw [hres] at hf
          exact Bool.noConfusion hf
        · rintro ⟨hf, _⟩
          rw [hres] at hf
          exact Bool.noConfusion hf
      · rw [lookupA_setA_ne _ _ hn]
        exact hdisp n
    · rw [if_neg hres]
      have hresF : isReservedEvent name = false := by
        revert hres
        cases isReservedEvent name <;> simp
      have hesn : ¬ st.es = none := by
        intro hcon
        rw [hcon] at hes
        exact Bool.noConfusion hes
      by_cases hmem0 : name ∈ st.dispatchers
      · rw [if_pos (Or.inr hmem0)]
        by_cases hn : n = name
        · subst hn
          rw [lookupA_setA_self]
          simp only [Option.isSome_some]
          constructor
          · intro _
            exact ⟨hresF, trivial⟩
          · intro _
            exact hmem0
        · rw [lookupA_setA_ne _ _ hn]
          exact hdisp n
      · rw [if_neg (fun hc => hc.elim hesn hmem0)]
        by_cases hn : n = name
        · subst hn
          rw [lookupA_setA_self]
          simp only [Option.isSome_some]
          constructor
          · intro _
            exact ⟨hresF, trivial⟩
          · intro _
            exact List.mem_append_right _ (List.mem_singleton.mpr rfl)
        · rw [lookupA_setA_ne _ _ hn]
          constructor
          · intro hmm
            rcases List.mem_append.mp hmm with hmm | hmm
            · exact (hdisp n).mp hmm
            · rw [List.mem_singleton] at hmm
              exact absurd hmm hn
          · intro hrhs
            exact List.mem_append_left _ ((hdisp n).mpr hrhs)

theorem removeListener_eq_of_lookup (st : Receiver) (name : String) (h : Handler)
    (current : List Handler) (hlk : lookupA name st.listeners = some current) :
    removeListener st name h
      = if eraseSet h current ≠ [] then
          { st with listeners := setA name (eraseSet h current) st.listeners }
        else
          { st with listeners := eraseA name st.listeners,
                    dispatchers := eraseSet name st.dispatchers } := by
  unfold removeListener
  rw [hlk]

theorem regInv_removeListener (st : Receiver) (name : String) (h : Handler)
    (inv : RegInv st) : RegInv (removeListener st name h) := by
  obtain ⟨hes, hne, hdisp⟩ := inv
  cases hlk : lookupA name st.listeners with
  | none =>
    have heq : removeListener st name h = st := by
      unfold removeListener
      rw [hlk]
    rw [heq]
    exact ⟨hes, hne, hdisp⟩
  | some current =>
    rw [removeListener_eq_of_lookup st name h current hlk]
    by_cases hcur : eraseSet h current ≠ []
    · rw [if_pos hcur]
      refine ⟨hes, ?_, ?_⟩
      · intro n hs hlk2
        by_cases hn : n = name
        · subst hn
          rw [lookupA_setA_self] at hlk2
          cases hlk2
          exact hcur
        · rw [lookupA_setA_ne _ _ hn] at hlk2
          exact hne n hs hlk2
      · intro n
        by_cases hn : n = name
        · subst hn
          rw [lookupA_setA_self]
          have hd := hdisp n
          rw [hlk] at hd
          simpa using hd
        · rw [lookupA_setA_ne _ _ hn]
          exact hdisp n
    · rw [if_neg hcur]
      refine ⟨hes, ?_, ?_⟩
      · intro n hs hlk2
        by_cases hn : n = name
        · subst hn
          rw [lookupA_eraseA_self] at hlk2
          exact Option.noConfusion hlk2
        · rw [lookupA_eraseA_ne _ hn] at hlk2
          exact hne n hs hlk2
      · intro n
        by_cases hn : n = name
        · subst hn
          rw [lookupA_eraseA_self]
          constructor
          · intro hmm
            rcases mem_eraseSet.mp hmm with ⟨_, hneq⟩
            exact absurd rfl hneq
          · rintro ⟨_, hf⟩
            exact Bool.noConfusion hf
        · rw [lookupA_eraseA_ne _ hn]
          constructor
          · intro hmm
            exact (hdisp n).mp (mem_eraseSet.mp hmm).1
          · intro hrhs
            exact mem_eraseSet.mpr ⟨(hdisp n).mpr hrhs, hn⟩

theorem regInv_applyOps (ops : List ROp) :
    ∀ st : Receiver, RegInv st → RegInv (applyOps st ops) := by
  induction ops with
  | nil =>
    intro st inv
    exact inv
  | cons op rest ih =>
    intro st inv
    have hstep : RegInv (applyOp st op) := by
      cases op with
      | sub name h => exact regInv_addListener st name h inv
      | unsub name h => exact regInv_removeListener st name h inv
    exact ih (applyOp st op) hstep

/-- C2: starting from a freshly connected receiver with a live underlying
handle, after any sequence of subscribe/unsubscribe calls the set of names
with an attached low-level dispatcher is exactly the set of non-reserved
names that still have at least one registered handler; reserved names never
acquire a dynamically attached dispatcher. -/
theorem dispatcher_attachment_invariant (ops : List ROp) (rs : Nat) (name : String) :
    name ∈ (applyOps (connectedInit rs) ops).dispatchers
      ↔ (isReservedEvent name = false
          ∧ ∃ hs, lookupA name (applyOps (connectedInit rs) ops).listeners = some hs
              ∧ hs ≠ []) := by
  have inv0 : RegInv (connectedInit rs) := by
    refine ⟨rfl, ?_, ?_⟩
    · intro n hs hlk
      simp [connectedInit, lookupA] at hlk
    · intro n
      simp [connectedInit, lookupA]
  obtain ⟨hes, hne, hdisp⟩ := regInv_applyOps ops (connectedInit rs) inv0
  constructor
  · intro hmem
    rcases (hdisp name).mp hmem with ⟨hres, hsome⟩
    rcases Option.isSome_iff_exists.mp hsome with ⟨hs, hhs⟩
    exact ⟨hres, hs, hhs, hne name hs hhs⟩
  · rintro ⟨hres, hs, hhs, _⟩
    refine (hdisp name).mpr ⟨hres, ?_⟩
    rw [hhs]
    rfl

theorem key_forces_value {m : SSEManager} (hndC : (keysOf m.clientsById).Nodup)
    {cid : String} {c : SClient} (hlk : lookupA cid m.clientsById = some c) :
    ∀ q ∈ m.clientsById, q.1 = cid → q.2 = c := by
  intro q hq hq1
  have hq' : lookupA q.1 m.clientsById = some q.2 := lookupA_of_mem_nodup hndC hq
  rw [hq1, hlk] at hq'
  injection hq' with hh
  exact hh.symm

theorem conn_to_idx {m : SSEManager}
    (hcli : ∀ q ∈ m.clientsById, ∀ u ∈ q.2.userId.toList,
        ∃ p ∈ m.clientIdsByUser, p.1 = u ∧ q.1 ∈ p.2)
    {u : String} {q : String × SClient} (hq : q ∈ m.clientsById)
    (hq2 : q.2.userId = some u) :
    (lookupA u m.clientIdsByUser).isSome = true := by
  rcases hcli q hq u (by simp [hq2]) with ⟨p, hp, hp1, _⟩
  have hmem : (u, p.2) ∈ m.clientIdsByUser := by
    rw [← hp1]
    exact hp
  exact lookupA_isSome_of_mem hmem

theorem conn_in_user_set {m : SSEManager} (hndU : (keysOf m.clientIdsByUser).Nodup)
    (hcli : ∀ q ∈ m.clientsById, ∀ u ∈ q.2.userId.toList,
        ∃ p ∈ m.clientIdsByUser, p.1 = u ∧ q.1 ∈ p.2)
    {u : String} {s : List String} (hlu : lookupA u m.clientIdsByUser = some s)
    {q : String × SClient} (hq : q ∈ m.clientsById) (hq2 : q.2.userId = some u) :
    q.1 ∈ s := by
  rcases hcli q hq u (by simp [hq2]) with ⟨p, hp, hp1, hp2⟩
  have hps : lookupA p.1 m.clientIdsByUser = some p.2 := lookupA_of_mem_nodup hndU hp
  rw [hp1, hlu] at hps
  injection hps with hh
  rw [hh]
  exact hp2

theorem idx_to_remaining {m : SSEManager}
    (hidx : ∀ p ∈ m.clientIdsByUser, p.2 ≠ [] ∧ p.2.Nodup
        ∧ ∀ cid ∈ p.2, ∃ q ∈ m.clientsById, q.1 = cid ∧ q.2.userId = some p.1)
    {u : String} (hsome : (lookupA u m.clientIdsByUser).isSome = true)
    {cid : String}
    (havoid : ∀ q, q ∈ m.clientsById → q.2.userId = some u → q.1 ≠ cid) :
    ∃ q ∈ eraseA cid m.clientsById, q.2.userId = some u := by
  rcases Option.isSome_iff_exists.mp hsome with ⟨s, hs⟩
  rcases hidx (u, s) (lookupA_mem hs) with ⟨hne0, _, hall⟩
  rcases List.exists_mem_of_ne_nil _ hne0 with ⟨cid0, hcid0⟩
  rcases hall cid0 hcid0 with ⟨q, hq, _, hq2⟩
  exact ⟨q, mem_eraseA.mpr ⟨hq, havoid q hq hq2⟩, hq2⟩

theorem removeClient_eq_of_lookup (m : SSEManager) (cid : String) (c : SClient)
    (hlk : lookupA cid m.clientsById = some c) :
    m.removeClient cid
      = match c.userId with
        | none => { m with clientsById := eraseA cid m.clientsById }
        | some u =>
          match lookupA u m.clientIdsByUser with
          | none => { m with clientsById := eraseA cid m.clientsById }
          | some s =>
            if eraseSet cid s = [] then
              { clientsById := eraseA cid m.clientsById,
                clientIdsByUser := eraseA u m.clientIdsByUser }
            else
              { clientsById := eraseA cid m.clientsById,
                clientIdsByUser := setA u (eraseSet cid s) m.clientIdsByUser } := by
  unfold SSEManager.removeClient
  rw [hlk]

/-- C7: in the part_001 registry, removeClient followed by sendToClient with
the removed id is a no-op on the registry; and for a well-formed registry, a
userId remains in the user index after a removal exactly when some still
registered connection carries that userId — it disappears exactly when the
last connection of that user was the one removed. -/
theorem remove_then_send_and_user_index (m : SSEManager) (cid : String) (evt : SEvent)
    (hwf : m.wf) :
    (m.removeClient cid).sendToClient cid evt = m.removeClient cid
    ∧ ∀ u, ((lookupA u (m.removeClient cid).clientIdsByUser).isSome = true
        ↔ ∃ q ∈ (m.removeClient cid).clientsById, q.2.userId = some u) := by
  obtain ⟨hndC, hndU, hidx, hcli⟩ := hwf
  have hlknone : lookupA cid (m.removeClient cid).clientsById = none := by
    cases hlk : lookupA cid m.clientsById with
    | none =>
      have heq : m.removeClient cid = m := by
        unfold SSEManager.removeClient
        rw [hlk]
      rw [heq]
      exact hlk
    | some c =>
      rw [removeClient_eq_of_lookup m cid c hlk]
      split
      · exact lookupA_eraseA_self cid m.clientsById
      · split
        · exact lookupA_eraseA_self cid m.clientsById
        · split
          · exact lookupA_eraseA_self cid m.clientsById
          · exact lookupA_eraseA_self cid m.clientsById
  refine ⟨?_, ?_⟩
  · unfold SSEManager.sendToClient
    rw [hlknone]
  · intro u
    cases hlk : lookupA cid m.clientsById with
    | none =>
      have heq : m.removeClient cid = m := by
        unfold SSEManager.removeClient
        rw [hlk]
      rw [heq]
      constructor
      · intro hsome
        rcases Option.isSome_iff_exists.mp hsome with ⟨s, hs⟩
        rcases hidx (u, s) (lookupA_mem hs) with ⟨hne0, _, hall⟩
        rcases List.exists_mem_of_ne_nil _ hne0 with ⟨cid0, h0⟩
        rcases hall cid0 h0 with ⟨q, hq, _, hq2⟩
        exact ⟨q, hq, hq2⟩
      · rintro ⟨q, hq, hq2⟩
        exact conn_to_idx hcli hq hq2
    | some c =>
      have hmemc : (cid, c) ∈ m.clientsById := lookupA_mem hlk
      rw [removeClient_eq_of_lookup m cid c hlk]
      split
      · rename_i huid
        have hav : ∀ q, q ∈ m.clientsById → q.2.userId = some u → q.1 ≠ cid := by
          intro q hq hq2 hq1
          have hv := key_forces_value hndC hlk q hq hq1
          rw [hv, huid] at hq2
          exact Option.noConfusion hq2
        constructor
        · intro hsome
          exact idx_to_remaining hidx hsome hav
        · rintro ⟨q, hq, hq2⟩
          exact conn_to_idx hcli (mem_eraseA.mp hq).1 hq2
      · rename_i u0 huid
        have hav0 : u ≠ u0 → ∀ q, q ∈ m.clientsById → q.2.userId = some u → q.1 ≠ cid := by
          intro hu q hq hq2 hq1
          have hv := key_forces_value hndC hlk q hq hq1
          rw [hv, huid] at hq2
          injection hq2 with hh
          exact hu hh.symm
        split
        · rename_i hlu
          exfalso
          have hx : (lookupA u0 m.clientIdsByUser).isSome = true :=
            conn_to_idx hcli hmemc huid
          rw [hlu] at hx
          exact Bool.noConfusion hx
        · rename_i s hlu
          by_cases hs2 : eraseSet cid s = []
          · rw [if_pos hs2]
            by_cases hu : u = u0
            · subst hu
              constructor
              · intro habs
                rw [lookupA_eraseA_self] at habs
                exact Bool.noConfusion habs
              · rintro ⟨q, hq, hq2⟩
                exfalso
                obtain ⟨hqm, hqne⟩ := mem_eraseA.mp hq
                have hqin := conn_in_user_set hndU hcli hlu hqm hq2
                have hmm : q.1 ∈ eraseSet cid s := mem_eraseSet.mpr ⟨hqin, hqne⟩
                rw [hs2] at hmm
                simp at hmm
            · rw [lookupA_eraseA_ne _ hu]
              constructor
              · intro hsome
                exact idx_to_remaining hidx hsome (hav0 hu)
              · rintro ⟨q, hq, hq2⟩
                exact conn_to_idx hcli (mem_eraseA.mp hq).1 hq2
          · rw [if_neg hs2]
            by_cases hu : u = u0
            · subst hu
              rw [lookupA_setA_self]
              constructor
              · intro _
                rcases List.exists_mem_of_ne_nil _ hs2 with ⟨cid0, h0⟩
                obtain ⟨h0s, h0ne⟩ := mem_eraseSet.mp h0
                rcases hidx (u, s) (lookupA_mem hlu) with ⟨_, _, hall⟩
                rcases hall cid0 h0s with ⟨q, hq, hq1, hq2⟩
                refine ⟨q, mem_eraseA.mpr ⟨hq, ?_⟩, hq2⟩
                rw [hq1]
                exact h0ne
              · intro _
                rfl
            · rw [lookupA_setA_ne _ _ hu]
              constructor
              · intro hsome
                exact idx_to_remaining hidx hsome (hav0 hu)
              · rintro ⟨q, hq, hq2⟩
                exact conn_to_idx hcli (mem_eraseA.mp hq).1 hq2

/-- Witness for C7 on a concrete two-connection registry of one user. -/
theorem remove_then_send_and_user_index_witness :
    (c7Manager.removeClient "a").sendToClient "a" demoEvt = c7Manager.removeClient "a"
    ∧ ((lookupA "u" (c7Manager.removeClient "a").clientIdsByUser).isSome = true
        ↔ ∃ q ∈ (c7Manager.removeClient "a").clientsById, q.2.userId = some "u") := by
  have h := remove_then_send_and_user_index c7Manager "a" demoEvt (by
    refine ⟨by decide, by decide, ?_, ?_⟩ <;> decide)
  exact ⟨h.1, h.2 "u"⟩

end TypedSSE
